import Mathlib

/-!
Verification of `hack/fix-crd-claims.py`, the claims-block CRD patcher.

The script reads a YAML file as a list of raw text lines and performs a single
left-to-right pass, tracking a flag `in_claims_items` and the indentation
`claims_indent` of the most recently entered `claims:` line.  We embed the pure
core of `fix_claims` (everything between the read and the write) as a function
on `List String`, translated line by line from the Python source.
-/

namespace FixCrdClaims

/-- The substring test `needle in hay` of the source, on the character lists of
the two strings. -/
def containsStr (hay needle : String) : Bool :=
  (List.range (hay.data.length + 1)).any fun s =>
    (hay.data.drop s).take needle.data.length == needle.data

/-- `len(line) - len(line.lstrip())` of the source: the number of leading
whitespace characters of a line. -/
def leadingWS (line : String) : Nat :=
  (line.data.takeWhile fun c => c.isWhitespace).length

/-- `line.strip()` of the source: the line with leading and trailing whitespace
removed. -/
def strTrim (line : String) : String :=
  String.mk (((line.data.dropWhile fun c => c.isWhitespace).reverse.dropWhile
    fun c => c.isWhitespace).reverse)

/-- The freshly constructed line `" " * indent + "x-kubernetes-map-type: atomic\n"`
where `indent` is the leading-whitespace count of `line` (source lines 77-78). -/
def mapTypeLine (line : String) : String :=
  String.mk (List.replicate (leadingWS line) ' ') ++ "x-kubernetes-map-type: atomic\n"

/-- The lookahead loop of source lines 51-62: starting at `j`, while
`j < len(lines)` and `j < hi`, record whether a line containing `type: array`
was seen; stop with success as soon as a line containing
`x-kubernetes-list-type: set` is found.  Returns
`(found_array, found_list_type)`.  The first `Nat` argument is fuel, at least
`hi - j` at every call site. -/
def laLoop (lines : List String) (hi : Nat) : Nat → Nat → Bool → Bool × Bool
  | 0, _, fa => (fa, false)
  | fuel+1, j, fa =>
    if j < lines.length ∧ j < hi then
      let fa' := fa || containsStr (lines.getD j "") "type: array"
      if containsStr (lines.getD j "") "x-kubernetes-list-type: set" then (fa', true)
      else laLoop lines hi fuel (j+1) fa'
    else (fa, false)

/-- Source lines 51-65: the `type: object` line at index `i` qualifies when the
lookahead over lines `i+1 .. i+4` finds both markers. -/
def qualifies (lines : List String) (i : Nat) : Bool :=
  (laLoop lines (i+5) 4 (i+1) false).1 && (laLoop lines (i+5) 4 (i+1) false).2

/-- Source lines 67-73: the already-present check.  Scans
`k in range(max(0, i-5), min(len(lines), i+5))`, skipping `k = i`, for a line
containing `x-kubernetes-map-type` whose leading-whitespace count differs from
the count of line `i` by less than 2. -/
def hasMapType (lines : List String) (i : Nat) : Bool :=
  (List.range (min lines.length (i+5))).any fun k =>
    decide (i - 5 ≤ k) && decide (k ≠ i) &&
      containsStr (lines.getD k "") "x-kubernetes-map-type" &&
      decide ((((leadingWS (lines.getD k "") : Int)) -
        ((leadingWS (lines.getD i "") : Int))).natAbs < 2)

/-- One iteration of the `while i < len(lines)` loop of `fix_claims`
(source lines 27-84), for the line at index `i`: returns the new
`(in_claims_items, claims_indent)` state and the lines appended to
`fixed_lines` during this iteration.  Note that when the current line strips to
`type: object` but no new line is inserted, the line is appended twice: once at
source line 47 and once more at the fall-through append of source line 83. -/
def step (lines : List String) (i : Nat) (inCl : Bool) (clInd : Nat) :
    (Bool × Nat) × List String :=
  let line := lines.getD i ""
  if containsStr line "claims:" && !inCl then
    ((true, leadingWS line), [line])
  else if inCl then
    let inCl' : Bool := if strTrim line ≠ "" ∧ leadingWS line ≤ clInd then false else true
    if strTrim line = "type: object" then
      if qualifies lines i && !hasMapType lines i then
        ((inCl', clInd), [line, mapTypeLine line])
      else
        ((inCl', clInd), [line, line])
    else
      ((inCl', clInd), [line])
  else
    ((inCl, clInd), [line])

/-- The main loop of `fix_claims`: every path through the loop body advances
`i` by exactly one, so the loop is a fold of `step` over the indices; the first
`Nat` argument is fuel, at least `lines.length - i` at every call site.  `acc`
is the `fixed_lines` accumulator. -/
def fixGo (lines : List String) : Nat → Nat → Bool → Nat → List String → List String
  | 0, _, _, _, acc => acc
  | fuel+1, i, inCl, clInd, acc =>
    if i < lines.length then
      fixGo lines fuel (i+1) (step lines i inCl clInd).1.1 (step lines i inCl clInd).1.2
        (acc ++ (step lines i inCl clInd).2)
    else acc

/-- The pure core of `fix_claims`: the transformation applied to the list of
lines read from the file, whose result is written back. -/
def fix_claims (lines : List String) : List String :=
  fixGo lines lines.length 0 false 0 []

/-- Provenance of one output position `p`: the line is either a line of the
input, or the constructed `x-kubernetes-map-type: atomic` line matching the
indentation of the `type: object` line right before it. -/
def lineOk (lines out : List String) (p : Nat) : Prop :=
  out.getD p "" ∈ lines ∨
    (0 < p ∧ strTrim (out.getD (p-1) "") = "type: object" ∧
      out.getD p "" = mapTypeLine (out.getD (p-1) ""))

/-- The ten-line example block of the spec: a claims block whose qualifying
`type: object` sits at 8 spaces of indentation. -/
def exSpec : List String :=
  ["    claims:\n",
   "      items:\n",
   "        properties:\n",
   "          name:\n",
   "            type: string\n",
   "        required:\n",
   "        - name\n",
   "        type: object\n",
   "      type: array\n",
   "      x-kubernetes-list-type: set\n"]

/-- An input with a qualifying `type: object` pattern but no `claims:` line. -/
def exNoClaims : List String :=
  ["type: object\n", "type: array\n", "x-kubernetes-list-type: set\n"]

/-- A claims block whose `type: object` line has no qualifying lookahead. -/
def exDup : List String := ["claims:\n", "  type: object\n"]

/-- A claims block whose `type: object` line is followed by neither marker. -/
def exNoLook : List String := ["claims:\n", "  type: object\n", "  foo\n"]

/-- A qualifying site at index 1 whose only `x-kubernetes-map-type` line sits
exactly 5 lines after it, at matching indentation. -/
def exWindowAfter : List String :=
  ["claims:\n", "  type: object\n", "  type: array\n", "  x-kubernetes-list-type: set\n",
   "  a\n", "  b\n", "  x-kubernetes-map-type: atomic\n"]

/-- A qualifying site at index 1 with an `x-kubernetes-map-type` line at
matching indentation 3 lines after it. -/
def exMapPresent : List String :=
  ["claims:\n", "  type: object\n", "  type: array\n",
   "  x-kubernetes-list-type: set\n", "  x-kubernetes-map-type: atomic\n"]

/-- An unannotated input with two qualifying `type: object` sites only 3 lines
apart (indices 1 and 4). -/
def exTwoSites : List String :=
  ["claims:\n", "  type: object\n", "  type: array\n", "  x-kubernetes-list-type: set\n",
   "  type: object\n", "  type: array\n", "  x-kubernetes-list-type: set\n"]

theorem fixGo_acc_eq (lines : List String) (fuel : Nat) :
    ∀ (i : Nat) (inCl : Bool) (clInd : Nat) (acc : List String),
      fixGo lines fuel i inCl clInd acc = acc ++ fixGo lines fuel i inCl clInd [] := by
  induction fuel with
  | zero => intro i inCl clInd acc; simp [fixGo]
  | succ fuel ih =>
    intro i inCl clInd acc
    by_cases h : i < lines.length
    · simp only [fixGo, if_pos h]
      rw [ih (i+1) (step lines i inCl clInd).1.1 (step lines i inCl clInd).1.2
            (acc ++ (step lines i inCl clInd).2),
          ih (i+1) (step lines i inCl clInd).1.1 (step lines i inCl clInd).1.2
            ([] ++ (step lines i inCl clInd).2)]
      simp
    · simp [fixGo, h]

theorem step_snd_cases (lines : List String) (i : Nat) (inCl : Bool) (clInd : Nat) :
    (step lines i inCl clInd).2 = [lines.getD i ""] ∨
    (step lines i inCl clInd).2 = [lines.getD i "", lines.getD i ""] ∨
    ((step lines i inCl clInd).2 = [lines.getD i "", mapTypeLine (lines.getD i "")] ∧
      strTrim (lines.getD i "") = "type: object") := by
  simp only [step]
  split
  · left; rfl
  · split
    · split
      · split
        · right; right; exact ⟨rfl, by assumption⟩
        · right; left; rfl
      · left; rfl
    · left; rfl

theorem fixGo_no_claims (lines : List String) (fuel : Nat) :
    ∀ (i clInd : Nat) (acc : List String),
      lines.length ≤ fuel + i →
      (∀ l ∈ lines, containsStr l "claims:" = false) →
      fixGo lines fuel i false clInd acc = acc ++ lines.drop i := by
  induction fuel with
  | zero =>
    intro i clInd acc hf hno
    rw [List.drop_eq_nil_of_le (by omega)]
    simp [fixGo]
  | succ fuel ih =>
    intro i clInd acc hf hno
    by_cases hi : i < lines.length
    · have hline : lines.getD i "" = lines[i] := List.getD_eq_getElem lines "" hi
      have hc : containsStr (lines.getD i "") "claims:" = false := by
        rw [hline]; exact hno _ (List.getElem_mem hi)
      have hstep : step lines i false clInd = ((false, clInd), [lines.getD i ""]) := by
        simp only [step, hc]
        rfl
      simp only [fixGo, if_pos hi, hstep]
      rw [ih (i+1) clInd _ (by omega) hno]
      rw [List.drop_eq_getElem_cons hi, ← hline]
      simp
    · rw [List.drop_eq_nil_of_le (by omega)]
      simp [fixGo, hi]

theorem fixGo_sublist (lines : List String) (fuel : Nat) :
    ∀ (i : Nat) (inCl : Bool) (clInd : Nat),
      lines.length ≤ fuel + i →
      (lines.drop i).Sublist (fixGo lines fuel i inCl clInd []) := by
  induction fuel with
  | zero =>
    intro i inCl clInd hf
    rw [List.drop_eq_nil_of_le (by omega)]
    exact List.nil_sublist _
  | succ fuel ih =>
    intro i inCl clInd hf
    by_cases hi : i < lines.length
    · simp only [fixGo, if_pos hi]
      rw [fixGo_acc_eq lines fuel (i+1) (step lines i inCl clInd).1.1
            (step lines i inCl clInd).1.2 ([] ++ (step lines i inCl clInd).2)]
      rw [List.drop_eq_getElem_cons hi]
      have hline : lines[i] = lines.getD i "" := (List.getD_eq_getElem lines "" hi).symm
      have IH := ih (i+1) (step lines i inCl clInd).1.1 (step lines i inCl clInd).1.2
        (by omega)
      rcases step_snd_cases lines i inCl clInd with h | h | h
      · rw [h, hline]
        simpa using IH.cons₂ (lines.getD i "")
      · rw [h, hline]
        simpa using (IH.cons (lines.getD i "")).cons₂ (lines.getD i "")
      · rw [h.1, hline]
        simpa using (IH.cons (mapTypeLine (lines.getD i ""))).cons₂ (lines.getD i "")
    · rw [List.drop_eq_nil_of_le (by omega)]
      exact List.nil_sublist _

theorem getD_append_at (acc out : List String) (q : Nat) :
    (acc ++ out).getD (acc.length + q) "" = out.getD q "" := by
  rw [List.getD_append_right acc out "" (acc.length + q) (by omega)]
  congr 1
  omega

theorem lineOk_append (lines acc out : List String)
    (hacc : ∀ p, p < acc.length → lineOk lines acc p)
    (hout : ∀ q, q < out.length → lineOk lines (acc ++ out) (acc.length + q)) :
    ∀ p, p < (acc ++ out).length → lineOk lines (acc ++ out) p := by
  intro p hp
  by_cases h : p < acc.length
  · rcases hacc p h with hmem | ⟨hp0, ht, he⟩
    · left
      rw [List.getD_append acc out "" p h]
      exact hmem
    · right
      refine ⟨hp0, ?_, ?_⟩
      · rw [List.getD_append acc out "" (p-1) (by omega)]
        exact ht
      · rw [List.getD_append acc out "" p h, List.getD_append acc out "" (p-1) (by omega)]
        exact he
  · have hq : p - acc.length < out.length := by
      simp only [List.length_append] at hp
      omega
    have hres := hout (p - acc.length) hq
    have hps : acc.length + (p - acc.length) = p := by omega
    rwa [hps] at hres

theorem fixGo_lineOk (lines : List String) (fuel : Nat) :
    ∀ (i : Nat) (inCl : Bool) (clInd : Nat) (acc : List String),
      (∀ p, p < acc.length → lineOk lines acc p) →
      ∀ p, p < (fixGo lines fuel i inCl clInd acc).length →
        lineOk lines (fixGo lines fuel i inCl clInd acc) p := by
  induction fuel with
  | zero =>
    intro i inCl clInd acc hacc
    simpa [fixGo] using hacc
  | succ fuel ih =>
    intro i inCl clInd acc hacc
    by_cases hi : i < lines.length
    · simp only [fixGo, if_pos hi]
      apply ih
      have hmem : lines.getD i "" ∈ lines := by
        rw [List.getD_eq_getElem lines "" hi]
        exact List.getElem_mem hi
      rcases step_snd_cases lines i inCl clInd with h | h | h
      · rw [h]
        apply lineOk_append lines acc _ hacc
        intro q hq
        have hq0 : q = 0 := by simpa using hq
        subst hq0
        left
        rw [getD_append_at]
        simpa using hmem
      · rw [h]
        apply lineOk_append lines acc _ hacc
        intro q hq
        have hq1 : q = 0 ∨ q = 1 := by
          simp at hq
          omega
        rcases hq1 with rfl | rfl
        · left
          rw [getD_append_at]
          simpa using hmem
        · left
          rw [getD_append_at]
          simpa using hmem
      · rw [h.1]
        apply lineOk_append lines acc _ hacc
        intro q hq
        have hq1 : q = 0 ∨ q = 1 := by
          simp at hq
          omega
        rcases hq1 with rfl | rfl
        · left
          rw [getD_append_at]
          simpa using hmem
        · right
          have e0 : acc.length + 1 - 1 = acc.length + 0 := by omega
          have e1 : (acc ++ [lines.getD i "", mapTypeLine (lines.getD i "")]).getD
              (acc.length + 1 - 1) "" = lines.getD i "" := by
            rw [e0, getD_append_at]
            rfl
          refine ⟨by omega, ?_, ?_⟩
          · rw [e1]
            exact h.2
          · rw [e1, getD_append_at]
            rfl
    · simpa [fixGo, hi] using hacc

/-- Claim C1: the claim states that running the patcher twice yields the same
output as running it once.  The code violates this: on the second run the
already-present check suppresses the insertion, but the `type: object` line was
already appended at source line 47 and is appended again by the fall-through
append at source line 83, so the second run duplicates the `type: object` line
of the ten-line spec example. -/
theorem claimC1_second_run_differs :
    fix_claims (fix_claims exSpec) ≠ fix_claims exSpec ∧
      fix_claims (fix_claims exSpec) =
        ["    claims:\n",
         "      items:\n",
         "        properties:\n",
         "          name:\n",
         "            type: string\n",
         "        required:\n",
         "        - name\n",
         "        type: object\n",
         "        type: object\n",
         "        x-kubernetes-map-type: atomic\n",
         "      type: array\n",
         "      x-kubernetes-list-type: set\n"] := by
  decide

/-- Claim C2 (counterexample): the claim states that a qualifying, unannotated
`type: object` line receives an inserted line regardless of the claims-block
flag.  On an input with no `claims:` line at all, index 0 strips to
`type: object`, the lookahead finds both markers, no `x-kubernetes-map-type`
is nearby, and yet the output equals the input, with no
`x-kubernetes-map-type` line anywhere. -/
theorem claimC2_counterexample :
    strTrim (exNoClaims.getD 0 "") = "type: object" ∧
      qualifies exNoClaims 0 = true ∧ hasMapType exNoClaims 0 = false ∧
      fix_claims exNoClaims = exNoClaims ∧
      ((fix_claims exNoClaims).all fun l => !containsStr l "x-kubernetes-map-type") = true := by
  decide

/-- Claim C2 (amended): the `in_claims_items` flag DOES gate the insertion
check (source line 39 wraps the `type: object` test at line 46): when the flag
is false at the start of an iteration and the line does not contain `claims:`,
the iteration copies the line once, unchanged, and an input with no `claims:`
line is returned entirely unchanged. -/
theorem claimC2_flag_gates :
    (∀ (lines : List String) (i clInd : Nat),
        containsStr (lines.getD i "") "claims:" = false →
        step lines i false clInd = ((false, clInd), [lines.getD i ""])) ∧
      (∀ lines : List String, (∀ l ∈ lines, containsStr l "claims:" = false) →
        fix_claims lines = lines) := by
  constructor
  · intro lines i clInd hc
    simp only [step, hc]
    rfl
  · intro lines hno
    have h := fixGo_no_claims lines lines.length 0 0 [] (by omega) hno
    simpa [fix_claims] using h

/-- Witness for C2 (amended), at an input with no `claims:` line. -/
theorem claimC2_flag_gates_witness :
    containsStr (exNoClaims.getD 0 "") "claims:" = false ∧
      step exNoClaims 0 false 0 = ((false, 0), [exNoClaims.getD 0 ""]) ∧
      fix_claims exNoClaims = exNoClaims :=
  ⟨by decide, claimC2_flag_gates.1 exNoClaims 0 0 (by decide),
    claimC2_flag_gates.2 exNoClaims (by decide)⟩

/-- Claim C3: the claim states that the output length equals the input length
plus the number of inserted lines.  The code violates it: on a claims block
whose `type: object` line has no qualifying lookahead, every output line is a
line of the input (so zero insertions were performed), yet the output is one
line longer, because the `type: object` line is emitted twice (source lines 47
and 83). -/
theorem claimC3_length_grows_without_inserting :
    fix_claims exDup = ["claims:\n", "  type: object\n", "  type: object\n"] ∧
      ((fix_claims exDup).all fun l => exDup.contains l) = true ∧
      (fix_claims exDup).length = exDup.length + 1 := by
  decide

/-- Claim C4 (counterexample): the claim states the already-present window
reaches 5 lines after the current line.  It only reaches 4: here the single
`x-kubernetes-map-type` line sits exactly 5 lines after the qualifying
`type: object` at index 1, at matching indentation, and the claim therefore
predicts no insertion, yet the code inserts a new line after index 1. -/
theorem claimC4_counterexample :
    strTrim (exWindowAfter.getD 1 "") = "type: object" ∧
      qualifies exWindowAfter 1 = true ∧
      containsStr (exWindowAfter.getD 6 "") "x-kubernetes-map-type" = true ∧
      (((leadingWS (exWindowAfter.getD 6 "") : Int)) -
        ((leadingWS (exWindowAfter.getD 1 "") : Int))).natAbs < 2 ∧
      fix_claims exWindowAfter =
        ["claims:\n", "  type: object\n", "  x-kubernetes-map-type: atomic\n",
         "  type: array\n", "  x-kubernetes-list-type: set\n", "  a\n", "  b\n",
         "  x-kubernetes-map-type: atomic\n"] := by
  decide

/-- Claim C4 (amended): the already-present check examines the window of
indices `max(0, i-5)` to `min(len, i+5) - 1` — up to 5 lines before and up to
4 lines after the current line, excluding the current line itself — for a line
containing `x-kubernetes-map-type` whose leading-whitespace count differs from
the current line by less than 2; when the check succeeds at a qualifying
`type: object` line, no new line is inserted (the line itself is emitted
twice when the claims-block flag is set). -/
theorem claimC4_window_and_skip (lines : List String) (i : Nat) (inCl : Bool) (clInd : Nat) :
    (hasMapType lines i = true ↔
      ∃ k, i - 5 ≤ k ∧ k < min lines.length (i + 5) ∧ k ≠ i ∧
        containsStr (lines.getD k "") "x-kubernetes-map-type" = true ∧
        (((leadingWS (lines.getD k "") : Int)) -
          ((leadingWS (lines.getD i "") : Int))).natAbs < 2) ∧
    (strTrim (lines.getD i "") = "type: object" → qualifies lines i = true →
      hasMapType lines i = true →
      (step lines i inCl clInd).2 =
        if inCl then [lines.getD i "", lines.getD i ""] else [lines.getD i ""]) := by
  constructor
  · rw [hasMapType, List.any_eq_true]
    constructor
    · rintro ⟨k, hk, hf⟩
      rw [List.mem_range] at hk
      simp only [Bool.and_eq_true, decide_eq_true_eq] at hf
      exact ⟨k, hf.1.1.1, hk, hf.1.1.2, hf.1.2, hf.2⟩
    · rintro ⟨k, h1, h2, h3, h4, h5⟩
      refine ⟨k, List.mem_range.mpr h2, ?_⟩
      simp only [Bool.and_eq_true, decide_eq_true_eq]
      exact ⟨⟨⟨h1, h3⟩, h4⟩, h5⟩
  · intro ht hq hm
    cases inCl with
    | true =>
      have hfalse : (qualifies lines i && !hasMapType lines i) = false := by
        rw [hm]
        simp
      simp only [step, ht, hfalse]
      simp
    | false =>
      by_cases hc : containsStr (lines.getD i "") "claims:"
      · simp only [step, hc]
        simp
      · have hc' : containsStr (lines.getD i "") "claims:" = false := by
          simpa using hc
        simp only [step, hc']
        simp

/-- Witness for C4 (amended): an annotated claims block where the check
succeeds 3 lines after the qualifying line and no new line is inserted. -/
theorem claimC4_window_and_skip_witness :
    strTrim (exMapPresent.getD 1 "") = "type: object" ∧
      qualifies exMapPresent 1 = true ∧ hasMapType exMapPresent 1 = true ∧
      (step exMapPresent 1 true 0).2 = [exMapPresent.getD 1 "", exMapPresent.getD 1 ""] :=
  ⟨by decide, by decide, by decide, by
    have h := (claimC4_window_and_skip exMapPresent 1 true 0).2 (by decide) (by decide) (by decide)
    simpa using h⟩

/-- Claim C5 (counterexample): the claim states that a `type: object` line with
no qualifying lookahead produces no inserted line at that site.  Inside a
claims block the code still emits that line twice (source lines 47 and 83), so
an extra line does appear at the site. -/
theorem claimC5_counterexample :
    strTrim (exNoLook.getD 1 "") = "type: object" ∧ qualifies exNoLook 1 = false ∧
      fix_claims exNoLook = ["claims:\n", "  type: object\n", "  type: object\n", "  foo\n"] ∧
      (fix_claims exNoLook).length = exNoLook.length + 1 := by
  decide

/-- Claim C5 (amended): a `type: object` line whose lookahead does not find
both markers within the next 4 lines receives no constructed
`x-kubernetes-map-type` line at that site: the iteration emits only copies of
the original line — once when the claims-block flag is clear, twice when it is
set. -/
theorem claimC5_no_lookahead_no_insert (lines : List String) (i : Nat)
    (inCl : Bool) (clInd : Nat) (ht : strTrim (lines.getD i "") = "type: object")
    (hq : qualifies lines i = false) :
    (step lines i inCl clInd).2 =
      if inCl then [lines.getD i "", lines.getD i ""] else [lines.getD i ""] := by
  cases inCl with
  | true =>
    have hfalse : (qualifies lines i && !hasMapType lines i) = false := by
      rw [hq]
      simp
    simp only [step, ht, hfalse]
    simp
  | false =>
    by_cases hc : containsStr (lines.getD i "") "claims:"
    · simp only [step, hc]
      simp
    · have hc' : containsStr (lines.getD i "") "claims:" = false := by
        simpa using hc
      simp only [step, hc']
      simp

/-- Witness for C5 (amended), inside a claims block. -/
theorem claimC5_no_lookahead_no_insert_witness :
    strTrim (exNoLook.getD 1 "") = "type: object" ∧ qualifies exNoLook 1 = false ∧
      (step exNoLook 1 true 0).2 = [exNoLook.getD 1 "", exNoLook.getD 1 ""] :=
  ⟨by decide, by decide, by
    have h := claimC5_no_lookahead_no_insert exNoLook 1 true 0 (by decide) (by decide)
    simpa using h⟩

/-- Claim C6: on the ten-line spec example the output contains the new line
`        x-kubernetes-map-type: atomic` (8 spaces, matching the indentation of
`type: object`) immediately after the `type: object` line, and every other
line unchanged and in its original position. -/
theorem claimC6_targeted_insert :
    fix_claims exSpec =
      ["    claims:\n",
       "      items:\n",
       "        properties:\n",
       "          name:\n",
       "            type: string\n",
       "        required:\n",
       "        - name\n",
       "        type: object\n",
       "        x-kubernetes-map-type: atomic\n",
       "      type: array\n",
       "      x-kubernetes-list-type: set\n"] := by
  decide

/-- Claim C7: the input line sequence is a subsequence of the output line
sequence — no input line is dropped or reordered by the pass. -/
theorem claimC7_input_sublist_output (lines : List String) :
    lines.Sublist (fix_claims lines) := by
  have h := fixGo_sublist lines lines.length 0 false 0 (by omega)
  simpa [fix_claims] using h

/-- Claim C8: every line of the output is either a line of the input, or the
freshly constructed line of `leadingWS` many spaces followed by
`x-kubernetes-map-type: atomic` and a newline, placed immediately after the
`type: object` line whose indentation it copies. -/
theorem claimC8_output_line_provenance (lines : List String) (p : Nat)
    (hp : p < (fix_claims lines).length) :
    (fix_claims lines).getD p "" ∈ lines ∨
      (0 < p ∧ strTrim ((fix_claims lines).getD (p-1) "") = "type: object" ∧
        (fix_claims lines).getD p "" = mapTypeLine ((fix_claims lines).getD (p-1) "")) := by
  have h := fixGo_lineOk lines lines.length 0 false 0 []
    (by intro q hq; simp at hq) p (by simpa [fix_claims] using hp)
  simpa [fix_claims, lineOk] using h

/-- Witness for C8, at the inserted line (position 8) of the spec example. -/
theorem claimC8_output_line_provenance_witness :
    8 < (fix_claims exSpec).length ∧
      ((fix_claims exSpec).getD 8 "" ∈ exSpec ∨
        (0 < 8 ∧ strTrim ((fix_claims exSpec).getD 7 "") = "type: object" ∧
          (fix_claims exSpec).getD 8 "" = mapTypeLine ((fix_claims exSpec).getD 7 ""))) :=
  ⟨by decide, claimC8_output_line_provenance exSpec 8 (by decide)⟩

/-- Claim C9: the accumulated output never influences the pass — the result of
the loop is always the accumulator followed by a remainder computed from the
input alone — and consequently two qualifying `type: object` sites only 3
lines apart in an unannotated input both receive an inserted line in a single
pass (the first inserted line does not trip the already-present check of the
second site). -/
theorem claimC9_reads_input_only :
    (∀ (lines : List String) (fuel i : Nat) (inCl : Bool) (clInd : Nat) (acc : List String),
        fixGo lines fuel i inCl clInd acc = acc ++ fixGo lines fuel i inCl clInd []) ∧
      fix_claims exTwoSites =
        ["claims:\n", "  type: object\n", "  x-kubernetes-map-type: atomic\n",
         "  type: array\n", "  x-kubernetes-list-type: set\n",
         "  type: object\n", "  x-kubernetes-map-type: atomic\n",
         "  type: array\n", "  x-kubernetes-list-type: set\n"] :=
  ⟨fun lines fuel i inCl clInd acc => fixGo_acc_eq lines fuel i inCl clInd acc, by decide⟩

/-- Claim C10: every path through the loop body advances the read index by
exactly one (see `fixGo`, whose every recursive call is at `i+1`), so the pass
terminates after `lines.length - i` iterations: any fuel bound at least that
large yields the same, total, result. -/
theorem claimC10_loop_terminates (lines : List String) (f g i : Nat) (inCl : Bool)
    (clInd : Nat) (acc : List String) (hf : lines.length ≤ f + i)
    (hg : lines.length ≤ g + i) :
    fixGo lines f i inCl clInd acc = fixGo lines g i inCl clInd acc := by
  induction f generalizing g i inCl clInd acc with
  | zero =>
    have hi : ¬ i < lines.length := by omega
    cases g with
    | zero => rfl
    | succ g => simp [fixGo, hi]
  | succ f ih =>
    by_cases hi : i < lines.length
    · cases g with
      | zero => omega
      | succ g =>
        simp only [fixGo, if_pos hi]
        exact ih g (i+1) (step lines i inCl clInd).1.1 (step lines i inCl clInd).1.2
          (acc ++ (step lines i inCl clInd).2) (by omega) (by omega)
    · cases g with
      | zero => simp [fixGo, hi]
      | succ g => simp [fixGo, hi]

/-- Witness for C10: two sufficient fuel bounds on the spec example agree. -/
theorem claimC10_loop_terminates_witness :
    exSpec.length ≤ 10 + 0 ∧ exSpec.length ≤ 25 + 0 ∧
      fixGo exSpec 10 0 false 0 [] = fixGo exSpec 25 0 false 0 [] :=
  ⟨by decide, by decide,
    claimC10_loop_terminates exSpec 10 25 0 false 0 [] (by decide) (by decide)⟩

end FixCrdClaims
